import Mathlib

/-!
Verification of the sdk-it core against its specification.

Shallow embedding of the two source files:
  * `src/packages/core/src/lib/paths.ts` — structural-type-to-JSON-Schema
    serializer (`toSchema`), response merging (`#responseItemToResponses`),
    and the `Paths.getPaths` accumulator.
  * `src/packages/typescript/src/lib/sdk.ts` — the artifact compiler
    (`generateClientSdk`) with its endpoint registries (`Emitter`,
    `StreamEmitter`) and request-dispatch table (`SchemaEndpoint`).

Modelling conventions:
  * JavaScript objects used as ordered string-keyed maps become association
    lists (`List (String × α)`) with insertion-order-preserving update
    (`setAssoc`) and first-match lookup (`getAssoc`).
  * `JSON.stringify`-based equality tests in the source become decidable
    structural equality on the `Schema` type: the source builds its schema
    objects deterministically with a fixed key insertion order, so stringify
    equality and structural equality coincide.
  * The generated TypeScript text is kept structurally: fixed template text
    is elided and every interpolated fragment (keys, type references,
    encoder names, bucket contents, error identifiers, import names) is kept
    verbatim, so string claims about the interpolations are preserved.
  * External collaborators (the zod expression evaluator, the `stringcase`
    case-conversion helpers) are not part of the core per §1 of the spec;
    the evaluator is a function parameter and case conversion is modelled as
    the identity, since no claim depends on the concrete convention.
-/

/-- First-match lookup in an ordered association list (JS `obj[key]`). -/
def getAssoc {α : Type} : List (String × α) → String → Option α
  | [], _ => none
  | (k, v) :: rest, key => if k = key then some v else getAssoc rest key

/-- Insertion-order-preserving update (JS `obj[key] = v`): an existing key
keeps its position, a fresh key is appended. -/
def setAssoc {α : Type} : List (String × α) → String → α → List (String × α)
  | [], key, v => [(key, v)]
  | (k, w) :: rest, key, v =>
      if k = key then (key, v) :: rest else (k, w) :: setAssoc rest key v

/-- Modelled from the spec: `removeDuplicates` lives in `@sdk-it/core`
outside the provided sources; per §4.3 it deduplicates a list keeping each
element once. Modelled as keep-first-occurrence deduplication. -/
def removeDuplicates (xs : List String) : List String :=
  xs.foldl (fun acc x => if x ∈ acc then acc else acc ++ [x]) []

/-- Uppercasing of the HTTP method (`method.toUpperCase()`). -/
def upper (s : String) : String := String.mk (s.data.map Char.toUpper)

/-- `data.startsWith('#')`: the reference sigil is a single character, so
this is exactly a first-character test. -/
def startsWithHash (s : String) : Bool :=
  match s.data with
  | [] => false
  | c :: _ => c = Char.ofNat 35

/-- Modelled from the spec: case-conversion utilities (`stringcase`) are
excluded external collaborators (§1); no claim depends on the concrete
convention, so the conversion is modelled as the identity on names. -/
def camelcase (s : String) : String := s

mutual
/-- Structural Type Node (`DateType | string | null` handled via `Option`):
a plain string, a tagged node carrying the internal `$types` children list
(`kind`, `$types`, optional `value`), or a plain field-keyed object. -/
inductive Node where
  | str (s : String)
  | tagged (kind : String) (types : NodeList) (value : Option String)
  | obj (fields : NodeFields)
deriving DecidableEq
/-- The `$types` children list of a tagged node. -/
inductive NodeList where
  | nil
  | cons (hd : Node) (tl : NodeList)
deriving DecidableEq
/-- The fields of a plain field-keyed object. -/
inductive NodeFields where
  | nil
  | cons (key : String) (val : Node) (tl : NodeFields)
deriving DecidableEq
end

/-- First element of a `$types` list (JS `data[$types][0]`, `none` models
`undefined`). -/
def NodeList.headOpt : NodeList → Option Node
  | .nil => none
  | .cons h _ => some h

mutual
/-- Schema documents produced by the core: each constructor is one of the
object shapes the source builds (`\x7btype: t\x7d`, `\x7b$ref: r\x7d`,
`\x7benum: [v], type: c\x7d`, `additionalProperties`, `items`, `anyOf`,
`allOf`, `properties`, `\x7b\x7d`, the octet-stream binary override,
`oneOf` unions created by response merging, and the opaque result of the
external zod evaluator). -/
inductive Schema where
  | typeS (t : String)
  | refS (r : String)
  | litS (value : Option String) (ty : Option Node)
  | recordS (additional : Schema)
  | arrayS (items : Schema)
  | anyOfS (ls : SchemaList)
  | allOfS (ls : SchemaList)
  | objS (props : SchemaFields)
  | emptyS
  | binaryS
  | oneOfS (ls : SchemaList)
  | external (expr : String)
deriving DecidableEq
/-- List of schemas (children of `anyOf` / `allOf` / `oneOf`). -/
inductive SchemaList where
  | nil
  | cons (hd : Schema) (tl : SchemaList)
deriving DecidableEq
/-- Fields of an object schema (`properties`). -/
inductive SchemaFields where
  | nil
  | cons (key : String) (val : Schema) (tl : SchemaFields)
deriving DecidableEq
end

/-- Plain-list view of a `SchemaList`. -/
def SchemaList.toList : SchemaList → List Schema
  | .nil => []
  | .cons h t => h :: t.toList

/-- Append one schema at the end (JS `existing.oneOf.push(schema)`). -/
def SchemaList.push : SchemaList → Schema → SchemaList
  | .nil, s => .cons s .nil
  | .cons h t, s => .cons h (t.push s)

/-- The `oneOf` list of a schema when it is a merge-created union, `none`
otherwise (models the JS truthiness test `existing.oneOf`). -/
def Schema.oneOfList : Schema → Option SchemaList
  | .oneOfS ls => some ls
  | _ => none

mutual
/-- `toSchema` on a proper node (`paths.ts` lines 255–288, non-null case):
strings become `$ref`/`type`, then the `kind` tag dispatches in source
order (`literal`, `record`, `array`, `union`, `intersection`), any other
tagged node degrades to its first serialized child or `\x7b\x7d`, and a
plain field-keyed object becomes a closed `properties` object. -/
def toSchemaN : Node → Schema
  | .str s => if startsWithHash s then .refS s else .typeS s
  | .tagged k ts v =>
      if k = "literal" then .litS v ts.headOpt
      else if k = "record" then
        match ts with
        | .nil => .recordS (.typeS "any")
        | .cons t _ => .recordS (toSchemaN t)
      else if k = "array" then
        match ts with
        | .nil => .arrayS .emptyS
        | .cons t _ => .arrayS (toSchemaN t)
      else if k = "union" then .anyOfS (toSchemaNL ts)
      else if k = "intersection" then .allOfS (toSchemaNL ts)
      else
        match ts with
        | .nil => .emptyS
        | .cons t _ => toSchemaN t
  | .obj fs => .objS (toSchemaNF fs)
termination_by structural n => n
/-- Serialize every node of a `$types` list. -/
def toSchemaNL : NodeList → SchemaList
  | .nil => .nil
  | .cons h t => .cons (toSchemaN h) (toSchemaNL t)
termination_by structural l => l
/-- Serialize every field of a plain object. -/
def toSchemaNF : NodeFields → SchemaFields
  | .nil => .nil
  | .cons k v t => .cons k (toSchemaN v) (toSchemaNF t)
termination_by structural fs => fs
end

/-- `toSchema` including the `null`/`undefined` case (`\x7btype: any\x7d`). -/
def toSchema : Option Node → Schema
  | none => .typeS "any"
  | some n => toSchemaN n

/-- One call argument of the response accumulator (`ResponseItem`). -/
structure ResponseItem where
  statusCode : String
  response : Option Node
  contentType : String
  headers : List String
deriving DecidableEq

/-- One entry of the `ResponsesObject`: description, per-content-type
schemas in insertion order, and the optional header map. -/
structure ResponseEntry where
  description : String
  content : List (String × Schema)
  headers : Option (List (String × Schema))
deriving DecidableEq

/-- The schema serialized for an item (`item.response ? toSchema(...) : \x7b\x7d`). -/
def schemaOfItem (it : ResponseItem) : Schema :=
  match it.response with
  | some r => toSchemaN r
  | none => .emptyS

/-- One iteration of `#responseItemToResponses` (`paths.ts` lines 110–152):
first item for a status code creates the response entry (with the
octet-stream binary override), a new content type becomes a sibling entry,
and a repeated `(statusCode, contentType)` pair is merged — coalesced when
structurally equal, promoted to `oneOf` when different, appended to an
existing `oneOf` only when not already present. -/
def addResponseItem (acc : List (String × ResponseEntry)) (it : ResponseItem) :
    List (String × ResponseEntry) :=
  let schema := schemaOfItem it
  match getAssoc acc it.statusCode with
  | none =>
      setAssoc acc it.statusCode
        { description := "Response for " ++ it.statusCode,
          content := [(it.contentType,
            if it.contentType = "application/octet-stream" then Schema.binaryS
            else schema)],
          headers :=
            if it.headers.isEmpty then none
            else some (it.headers.map (fun h => (h, Schema.typeS "string"))) }
  | some entry =>
      match getAssoc entry.content it.contentType with
      | none =>
          setAssoc acc it.statusCode
            { entry with content := setAssoc entry.content it.contentType schema }
      | some existing =>
          match existing.oneOfList with
          | some ls =>
              if schema ∈ ls.toList then acc
              else
                setAssoc acc it.statusCode
                  { entry with
                    content := setAssoc entry.content it.contentType
                      (.oneOfS (ls.push schema)) }
          | none =>
              if existing = schema then acc
              else
                setAssoc acc it.statusCode
                  { entry with
                    content := setAssoc entry.content it.contentType
                      (.oneOfS (.cons existing (.cons schema .nil))) }

/-- `#responseItemToResponses`: left fold of the merge step over the items. -/
def responseItemToResponses (items : List ResponseItem) :
    List (String × ResponseEntry) :=
  items.foldl addResponseItem []

/-- The schema stored under `(statusCode, contentType)`. -/
def getContentSchema (r : List (String × ResponseEntry)) (st ct : String) :
    Option Schema :=
  match getAssoc r st with
  | none => none
  | some e => getAssoc e.content ct

/-- Semantic source of a selector (`SemanticSource`). -/
inductive SemSource where
  | query
  | queries
  | body
  | params
  | headers
deriving DecidableEq

/-- One input-parameter binding (`Selector`). -/
structure Selector where
  name : String
  select : String
  against : String
  source : SemSource
  nullable : Bool
  required : Bool
deriving DecidableEq

/-- `semanticSourceToOpenAPI`: the source object maps the four non-body
sources; `body` never reaches the lookup because it is filtered first
(`paths.ts` line 161), exactly as in the source. -/
def semanticSourceToOpenAPI : SemSource → String
  | .queries => "query"
  | .query => "query"
  | .headers => "header"
  | .params => "path"
  | .body => "undefined"

/-- A description-document parameter object. -/
structure Parameter where
  inLoc : String
  name : String
  required : Bool
  schema : Schema
deriving DecidableEq

/-- `#selectosToParameters` (`paths.ts` lines 157–178): body-sourced
selectors feed the synthesized request-body property map, every other
selector becomes a location parameter; both in input iteration order. The
external zod evaluator is the function parameter `ev` (expression text and
optional shared import reference). -/
def selectorsToParametersGo (ev : String → Option String → Schema)
    (commonZodImport : Option String) (params : List Parameter)
    (bodyProps : List (String × Schema)) :
    List Selector → List Parameter × List (String × Schema)
  | [] => (params, bodyProps)
  | sel :: rest =>
      if sel.source = .body then
        selectorsToParametersGo ev commonZodImport params
          (setAssoc bodyProps sel.name (ev sel.against commonZodImport)) rest
      else
        selectorsToParametersGo ev commonZodImport
          (params ++ [{ inLoc := semanticSourceToOpenAPI sel.source,
                        name := sel.name, required := sel.required,
                        schema := ev sel.against commonZodImport }])
          bodyProps rest

/-- Entry point of `#selectosToParameters`. -/
def selectorsToParameters (ev : String → Option String → Schema)
    (commonZodImport : Option String) (sels : List Selector) :
    List Parameter × List (String × Schema) :=
  selectorsToParametersGo ev commonZodImport [] [] sels

/-- One accumulated operation of the `Paths` class (`#operations` entry). -/
structure PathsOp where
  sourceFile : String
  name : String
  path : String
  method : String
  selectors : List Selector
  responses : List (String × ResponseEntry)
  tags : Option (List String)
  description : Option String
deriving DecidableEq

/-- The per-operation object inserted under `paths[path][method]`. The
request body keeps the synthesized property map (its fixed
`application/json` / `type: object` wrapper is template text). -/
structure OperationObject where
  operationId : String
  parameters : List Parameter
  tags : Option (List String)
  description : Option String
  requestBody : Option (List (String × Schema))
  responses : Option (List (String × ResponseEntry))
deriving DecidableEq

/-- `paths[path][method]` mapping. -/
def PathsObject : Type := List (String × List (String × OperationObject))

instance : DecidableEq PathsObject := by
  unfold PathsObject
  exact inferInstance

/-- Build the operation object for one accumulated operation
(`paths.ts` lines 186–207). -/
def buildOperationObject (ev : String → Option String → Schema)
    (commonZodImport : Option String) (op : PathsOp) : OperationObject :=
  let pb := selectorsToParameters ev commonZodImport op.selectors
  { operationId := op.name,
    parameters := pb.1,
    tags := op.tags,
    description := op.description,
    requestBody := if pb.2.isEmpty then none else some pb.2,
    responses := if op.responses.isEmpty then none else some op.responses }

/-- `operations[path][method] = operationObject` with the
`if (!operations[path]) operations[path] = \x7b\x7d` guard. -/
def setPath (m : PathsObject) (path method : String) (obj : OperationObject) :
    PathsObject :=
  match getAssoc m path with
  | none => setAssoc m path [(method, obj)]
  | some inner => setAssoc m path (setAssoc inner method obj)

/-- Record of one invocation of the `onOperation` hook: its arguments, the
state of the result mapping at call time, and the fragment it returned. -/
structure HookCall where
  sourceFile : String
  method : String
  path : String
  operation : OperationObject
  mapAtCall : PathsObject
  returned : PathsObject
deriving DecidableEq

/-- The loop body of `getPaths` (`paths.ts` lines 182–221). The hook, when
configured, is invoked once per operation after that operation's insertion;
the source then runs `Object.assign(operations, operations ?? \x7b\x7d)`
over the local `const operations` holding the hook's return value — the
inner binding shadows the result mapping, so the assignment merges the
fragment into itself and the returned fragment never reaches the outer
mapping (`paths.ts` lines 212–220). -/
def getPathsGo (ev : String → Option String → Schema)
    (commonZodImport : Option String)
    (hook : Option (String → String → String → OperationObject → PathsObject))
    (m : PathsObject) (calls : List HookCall) :
    List PathsOp → PathsObject × List HookCall
  | [] => (m, calls)
  | op :: rest =>
      let obj := buildOperationObject ev commonZodImport op
      let m1 := setPath m op.path op.method obj
      match hook with
      | none => getPathsGo ev commonZodImport hook m1 calls rest
      | some h =>
          let frag := h op.sourceFile op.method op.path obj
          getPathsGo ev commonZodImport hook m1
            (calls ++ [{ sourceFile := op.sourceFile, method := op.method,
                         path := op.path, operation := obj,
                         mapAtCall := m1, returned := frag }]) rest

/-- `getPaths`: the final mapping together with the hook-invocation log. -/
def getPaths (ev : String → Option String → Schema)
    (commonZodImport : Option String)
    (hook : Option (String → String → String → OperationObject → PathsObject))
    (ops : List PathsOp) : PathsObject × List HookCall :=
  getPathsGo ev commonZodImport hook [] [] ops

/-- A named import of an operation (`NamedImport`); `aliasName` is the
source's optional `alias` field. -/
structure NamedImport where
  name : String
  aliasName : Option String
  isTypeOnly : Bool
deriving DecidableEq

/-- An import declared by an operation (`Import`). -/
structure Import where
  isTypeOnly : Bool
  moduleSpecifier : String
  defaultImport : Option String
  namedImports : List NamedImport
  namespaceImport : Option String
deriving DecidableEq

/-- One declared input field of an operation (`OperationInput`). -/
structure OperationInput where
  source : String
  schema : String
deriving DecidableEq

/-- The `trigger` record of an operation: only `method` and `path` are
consumed by the compiler. -/
structure Trigger where
  method : String
  path : String
deriving DecidableEq

/-- The result of `operation.formatOutput()`: the `import` and `use`
fragments (the thunk is pure, so it is modelled by its result). -/
structure OutputFormat where
  importName : String
  use : String
deriving DecidableEq

/-- An operation specification (`Operation` in `sdk.ts`). `errors` is an
`Option` because the compiler guards it with `??` at both uses
(`sdk.ts` lines 207 and 220), so an absent list behaves differently from
an empty one. -/
structure Operation where
  name : String
  errors : Option (List String)
  type : String
  imports : List Import
  trigger : Trigger
  contentType : Option String
  schemas : List (String × String)
  inputs : List (String × OperationInput)
  formatOutput : OutputFormat
deriving DecidableEq

/-- The compiler's input specification: the grouped operations and the
optional shared zod module. The remaining `Spec` fields feed only the
pass-through boilerplate artifacts. -/
structure Spec where
  groups : List (String × List Operation)
  commonZod : Option String

/-- The four ordered input buckets of one operation. -/
structure Buckets where
  headers : List String
  query : List String
  body : List String
  params : List String
deriving DecidableEq, Inhabited

/-- `JSON.stringify(prop)` for the error message (`sdk.ts` line 172):
an `OperationInput` serializes with its two fields in declaration order. -/
def jsonStringifyInput (p : OperationInput) : String :=
  "\x7b\"source\":\"" ++ p.source ++ "\",\"schema\":\"" ++ p.schema ++ "\"\x7d"

/-- The message of the error thrown for an unrecognized input source
(`sdk.ts` lines 171–175): it names the source, the field, the serialized
field and the operation. -/
def unknownSourceMsg (opName fieldName : String) (p : OperationInput) : String :=
  "Unknown source " ++ p.source ++ " in " ++ fieldName ++ " " ++
    jsonStringifyInput p ++ " in " ++ opName

/-- The input-classification loop (`sdk.ts` lines 158–177): each field goes
to the bucket selected by its `source` (`headers`/`header`, `query`,
`body`, `path`), `internal` fields are skipped, and any other source value
throws, aborting the whole generation. -/
def classifyInputs (opName : String) :
    List (String × OperationInput) → Except String Buckets
  | [] => .ok { headers := [], query := [], body := [], params := [] }
  | (n, p) :: rest =>
      if p.source = "headers" ∨ p.source = "header" then
        match classifyInputs opName rest with
        | .error e => .error e
        | .ok b => .ok { b with headers := n :: b.headers }
      else if p.source = "query" then
        match classifyInputs opName rest with
        | .error e => .error e
        | .ok b => .ok { b with query := n :: b.query }
      else if p.source = "body" then
        match classifyInputs opName rest with
        | .error e => .error e
        | .ok b => .ok { b with body := n :: b.body }
      else if p.source = "path" then
        match classifyInputs opName rest with
        | .error e => .error e
        | .ok b => .ok { b with params := n :: b.params }
      else if p.source = "internal" then classifyInputs opName rest
      else .error (unknownSourceMsg opName n p)

/-- The body encoder chosen for a standard dispatch entry
(`operation.contentType || 'json'`; the empty string is falsy). -/
def encoderOf (op : Operation) : String :=
  match op.contentType with
  | some ct => if ct = "" then "json" else ct
  | none => "json"

/-- The exported schema constant of one operation: bound directly to the
single variant's expression, or to an object literal mapping variant tag to
expression (`toLitObject`, from `@sdk-it/core`, modelled from the spec §4.3
step 1 as the tag-to-expression object). -/
inductive SchemaBody where
  | direct (expr : String)
  | litObject (variants : List (String × String))
deriving DecidableEq, Inhabited

/-- One `export const <name> = <body>;` line of a schema module. -/
structure SchemaDecl where
  name : String
  body : SchemaBody
deriving DecidableEq, Inhabited

/-- One entry of the `Endpoints` registry interface: the interpolated
input type, output type and error union (the union's `|`-joined members
are kept as a list). -/
structure EmitterEntry where
  input : String
  output : String
  errorUnion : List String
deriving DecidableEq, Inhabited

/-- One entry of the `StreamEndpoints` registry interface. -/
structure StreamEntry where
  input : String
  output : String
deriving DecidableEq, Inhabited

/-- One entry of the request-dispatch table (`SchemaEndpoint`): the
registry interface its `toRequest` input indexes, the schema reference,
the body encoder, and the four bucket lists interpolated into the
request-construction call. -/
structure DispatchEntry where
  registry : String
  schemaRef : String
  encoder : String
  inputHeaders : List String
  inputQuery : List String
  inputBody : List String
  inputParams : List String
deriving DecidableEq, Inhabited

/-- Everything one operation contributes to the artifact set. -/
structure OpArtifacts where
  decl : SchemaDecl
  importNames : List String
  errs : List String
  emitterEntries : List (String × EmitterEntry)
  streamEntries : List (String × StreamEntry)
  schemaEntries : List (String × DispatchEntry)
deriving DecidableEq, Inhabited

/-- The artifacts of one operation once its inputs classified successfully
(`sdk.ts` lines 137–239): schema constant, named-import collection, then
either the streaming pair of entries (`sse`) or the per-variant standard
entries with the error union. -/
def mkOpArtifacts (gFile : String) (op : Operation) (bks : Buckets) :
    OpArtifacts :=
  let schemaName := camelcase (op.name ++ " schema")
  let schemaRef := gFile ++ "." ++ schemaName
  let decl : SchemaDecl :=
    { name := schemaName,
      body :=
        if op.schemas.length = 1 then
          .direct (((op.schemas.head?).map Prod.snd).getD "")
        else .litObject op.schemas }
  let importNames :=
    (op.imports.map (fun i => i.namedImports.map (fun ni => ni.name))).flatten
  let output := op.formatOutput
  if op.type = "sse" then
    let endpoint := upper op.trigger.method ++ " " ++ op.trigger.path
    { decl, importNames, errs := [],
      emitterEntries := [],
      streamEntries :=
        [(endpoint,
          { input := "z.infer<typeof " ++ schemaRef ++ ">",
            output := output.use })],
      schemaEntries :=
        [(endpoint,
          { registry := "StreamEndpoints", schemaRef := schemaRef,
            encoder := "json",
            inputHeaders := bks.headers, inputQuery := bks.query,
            inputBody := bks.body, inputParams := bks.params })] }
  else
    let addTypeParser := decide (1 < op.schemas.length)
    { decl, importNames,
      errs := op.errors.getD [],
      emitterEntries := op.schemas.map (fun v =>
        let typePrefix :=
          if addTypeParser ∧ v.1 ≠ "json" then v.1 ++ " " else ""
        let inputExpr :=
          "typeof " ++ schemaRef ++
            (if addTypeParser then "." ++ v.1 else "")
        (typePrefix ++ upper op.trigger.method ++ " " ++ op.trigger.path,
         { input := "z.infer<" ++ inputExpr ++ ">",
           output := output.use,
           errorUnion :=
             (op.errors.getD ["ServerError"]) ++
               ["ParseError<" ++ inputExpr ++ ">"] })),
      streamEntries := [],
      schemaEntries := op.schemas.map (fun v =>
        let typePrefix :=
          if addTypeParser ∧ v.1 ≠ "json" then v.1 ++ " " else ""
        (typePrefix ++ upper op.trigger.method ++ " " ++ op.trigger.path,
         { registry := "Endpoints",
           schemaRef :=
             schemaRef ++ (if addTypeParser then "." ++ v.1 else ""),
           encoder := encoderOf op,
           inputHeaders := bks.headers, inputQuery := bks.query,
           inputBody := bks.body, inputParams := bks.params })) }

/-- Per-operation processing: classification first (`sdk.ts` lines
158–177, an unknown source aborts the whole run), then the artifacts. -/
def processOperation (gFile : String) (op : Operation) :
    Except String OpArtifacts :=
  match classifyInputs op.name op.inputs with
  | .error e => .error e
  | .ok bks => .ok (mkOpArtifacts gFile op bks)

/-- Sequential processing with first-error abort (the `for` loops of the
source throw out of the whole call). -/
def mapE {α β : Type} (f : α → Except String β) :
    List α → Except String (List β)
  | [] => .ok []
  | a :: as_ =>
      match f a with
      | .error e => .error e
      | .ok b =>
          match mapE f as_ with
          | .error e => .error e
          | .ok bs => .ok (b :: bs)

/-- Process one group: its schema-module file name and the artifacts of
its operations in order. -/
def processGroup (g : String × List Operation) :
    Except String (String × List OpArtifacts) :=
  match mapE (processOperation (camelcase g.1)) g.2 with
  | .error e => .error e
  | .ok as_ => .ok (camelcase g.1, as_)

/-- One generated `inputs/<group>.ts` module, kept structurally: the
shared named-import list (the `../zod` import line), the presence of the
`commonZod` import, and the schema declarations of the group. -/
structure InputsFile where
  sharedImportNames : List String
  hasCommonZod : Bool
  decls : List SchemaDecl
deriving DecidableEq, Inhabited

/-- The artifact set produced by `generateClientSdk`, kept structurally:
the two registries, the dispatch table, the collected error identifiers
with their deduplicated import list, the collected schema-module named
imports, and the per-group schema modules. -/
structure GenResult where
  emitterEndpoints : List (String × EmitterEntry)
  streamEndpoints : List (String × StreamEntry)
  schemaEndpoints : List (String × DispatchEntry)
  errors : List String
  errorImportNames : List String
  schemasImports : List String
  inputsFiles : List (String × InputsFile)
deriving DecidableEq, Inhabited

/-- Assembly of the artifact set from the processed groups (`sdk.ts` lines
242–268): concatenate every group's registry, dispatch and error
contributions in order, deduplicate the error import, and build one
`inputs/<group>.ts` module per group, each prefixed by the same
shared import line built from the named imports collected across all
groups. -/
def assembleGen (spec : Spec) (gs : List (String × List OpArtifacts)) :
    GenResult :=
  let allArts := (gs.map (fun g => g.2)).flatten
  let errors := (allArts.map (fun a => a.errs)).flatten
  let schemasImports := (allArts.map (fun a => a.importNames)).flatten
  { emitterEndpoints := (allArts.map (fun a => a.emitterEntries)).flatten,
    streamEndpoints := (allArts.map (fun a => a.streamEntries)).flatten,
    schemaEndpoints := (allArts.map (fun a => a.schemaEntries)).flatten,
    errors,
    errorImportNames := removeDuplicates errors,
    schemasImports,
    inputsFiles := gs.map (fun g =>
      ("inputs/" ++ g.1 ++ ".ts",
       { sharedImportNames := removeDuplicates schemasImports,
         hasCommonZod := spec.commonZod.isSome,
         decls := g.2.map (fun a => a.decl) })) }

/-- `generateClientSdk` (`sdk.ts` lines 118–269): process every group in
order, then assemble the registries, the dispatch table, the deduplicated
error import, and the per-group schema modules, each prefixed by the same
shared import line built from the named imports collected across all
groups. -/
def generateClientSdk (spec : Spec) : Except String GenResult :=
  match mapE processGroup spec.groups with
  | .error e => .error e
  | .ok gs => .ok (assembleGen spec gs)

/-- The named-import names declared by one operation, in order
(`operation.imports` flattened over `namedImports`). -/
def opNamedImports (op : Operation) : List String :=
  (op.imports.map (fun i => i.namedImports.map (fun ni => ni.name))).flatten

/-- The named imports declared by the operations of every group of a
specification, in iteration order. -/
def allNamedImports (spec : Spec) : List String :=
  ((spec.groups.map (fun g => (g.2.map opNamedImports).flatten)).flatten)

/-- Extract the success value of an `Except`, with a default. -/
def okOr {α : Type} (e : Except String α) (d : α) : α :=
  match e with
  | .ok a => a
  | .error _ => d

/-- Whether a node is a plain string. -/
def Node.isStr : Node → Bool
  | .str _ => true
  | .tagged _ _ _ => false
  | .obj _ => false

/-- Whether a children list starts with a plain string. -/
def NodeList.headIsStr : NodeList → Bool
  | .nil => false
  | .cons hd _ => hd.isStr

mutual
/-- Data-model invariant of §3: a `literal` node holds its fixed value
plus its primitive kind, i.e. its first `$types` child is a plain string
naming the primitive type. -/
def Node.wf : Node → Bool
  | .str _ => true
  | .tagged k ts _ =>
      (if k = "literal" then ts.headIsStr else true) && ts.wfList
  | .obj fs => fs.wfFields
termination_by structural n => n
/-- Well-formedness of every node of a children list. -/
def NodeList.wfList : NodeList → Bool
  | .nil => true
  | .cons h t => h.wf && t.wfList
termination_by structural l => l
/-- Well-formedness of every field of a plain object. -/
def NodeFields.wfFields : NodeFields → Bool
  | .nil => true
  | .cons _ v t => v.wf && t.wfFields
termination_by structural fs => fs
end

mutual
/-- No unresolved internal tag leaks into a schema document: the only
place a raw node can be embedded is the `type` slot of a `literal` schema
(`type: data[$types][0]`, `paths.ts` line 265), and it must be a plain
primitive-name string — never a tagged or object node. -/
def Schema.noLeak : Schema → Bool
  | .litS _ ty =>
      match ty with
      | none => true
      | some n => n.isStr
  | .recordS s => s.noLeak
  | .arrayS s => s.noLeak
  | .anyOfS ls => ls.noLeakList
  | .allOfS ls => ls.noLeakList
  | .oneOfS ls => ls.noLeakList
  | .objS ps => ps.noLeakFields
  | _ => true
termination_by structural s => s
/-- Leak-freedom of every schema of a list. -/
def SchemaList.noLeakList : SchemaList → Bool
  | .nil => true
  | .cons h t => h.noLeak && t.noLeakList
termination_by structural l => l
/-- Leak-freedom of every field schema. -/
def SchemaFields.noLeakFields : SchemaFields → Bool
  | .nil => true
  | .cons _ v t => v.noLeak && t.noLeakFields
termination_by structural fs => fs
end

/-- A concrete evaluator instance: the opaque canonical schema of each
expression, used to evaluate the model on closed inputs. -/
def evExternal : String → Option String → Schema :=
  fun expr _ => Schema.external expr

/-- A concrete accumulated operation for closed evaluations. -/
def pathsOpA : PathsOp :=
  { sourceFile := "widgets.ts", name := "getWidget", path := "/widgets",
    method := "get", selectors := [], responses := [],
    tags := none, description := none }

/-- A concrete non-empty paths fragment for a hook to return. -/
def hookFragment : PathsObject :=
  [("/extra", [("get", buildOperationObject evExternal none pathsOpA)])]

/-- A concrete hook that always returns `hookFragment`. -/
def hookReturningFragment :
    String → String → String → OperationObject → PathsObject :=
  fun _ _ _ _ => hookFragment

/-- A concrete octet-stream response item with a declared response type. -/
def octetItem : ResponseItem :=
  ⟨"200", some (.str "number"), "application/octet-stream", []⟩

/-- A concrete JSON response item for status 200. -/
def jsonItem200 : ResponseItem := ⟨"200", none, "application/json", []⟩

/-- A concrete standard operation with two schema variants and two
classified inputs. -/
def stdOpTwoVariants : Operation :=
  { name := "createPet", errors := some ["NotFound"], type := "http",
    imports := [], trigger := { method := "post", path := "/pets" },
    contentType := none,
    schemas := [("json", "zj"), ("urlencoded", "zu")],
    inputs := [("id", { source := "path", schema := "z.string()" }),
               ("q", { source := "query", schema := "z.string()" })],
    formatOutput := { importName := "CreatePet", use := "CreatePet" } }

/-- A concrete streaming operation with two schema variants and a declared
non-json content type. -/
def sseOpTwoVariants : Operation :=
  { name := "watchPets", errors := none, type := "sse",
    imports := [], trigger := { method := "get", path := "/pets/watch" },
    contentType := some "urlencoded",
    schemas := [("json", "zj"), ("xml", "zx")],
    inputs := [("q", { source := "query", schema := "z.string()" })],
    formatOutput := { importName := "WatchPets", use := "WatchPets" } }

/-- A concrete standard operation declaring an explicitly empty error
list. -/
def emptyErrorsOp : Operation :=
  { name := "ping", errors := some [], type := "http",
    imports := [], trigger := { method := "get", path := "/ping" },
    contentType := none, schemas := [("json", "zp")], inputs := [],
    formatOutput := { importName := "Ping", use := "Ping" } }

/-- A concrete input field with an unrecognized source. -/
def badSourceInput : OperationInput := { source := "weird", schema := "z.any()" }

/-- A specification mixing one streaming and one standard operation in two
groups. -/
def mixedSpec : Spec :=
  { groups := [("g", [sseOpTwoVariants]), ("h", [stdOpTwoVariants])],
    commonZod := none }

/-- An operation of group `g1` importing the names `PetId` and `Shared`. -/
def opImportsA : Operation :=
  { stdOpTwoVariants with
    name := "a1",
    imports := [{ isTypeOnly := false, moduleSpecifier := "../zod",
                  defaultImport := none,
                  namedImports := [{ name := "PetId", aliasName := none, isTypeOnly := false },
                                   { name := "Shared", aliasName := none, isTypeOnly := false }],
                  namespaceImport := none }] }

/-- An operation of group `g2` importing the name `Shared` again. -/
def opImportsB : Operation :=
  { stdOpTwoVariants with
    name := "b1",
    imports := [{ isTypeOnly := false, moduleSpecifier := "../zod",
                  defaultImport := none,
                  namedImports := [{ name := "Shared", aliasName := none, isTypeOnly := false }],
                  namespaceImport := none }] }

/-- A two-group specification whose operations declare overlapping named
imports. -/
def importsSpec : Spec :=
  { groups := [("g1", [opImportsA]), ("g2", [opImportsB])], commonZod := none }

/-- A concrete well-formed literal node. -/
def literalNode : Node :=
  .tagged "literal" (.cons (.str "string") .nil) (some "on")

theorem getAssoc_setAssoc_self {α : Type} (l : List (String × α)) (k : String)
    (v : α) : getAssoc (setAssoc l k v) k = some v := by
  induction l with
  | nil => simp [setAssoc, getAssoc]
  | cons hd tl ih =>
      obtain ⟨k1, v1⟩ := hd
      by_cases h : k1 = k
      · subst h
        simp [setAssoc, getAssoc]
      · simp [setAssoc, getAssoc, h, ih]

theorem getAssoc_setAssoc_ne {α : Type} (l : List (String × α)) (k k' : String)
    (v : α) (h : k' ≠ k) : getAssoc (setAssoc l k v) k' = getAssoc l k' := by
  induction l with
  | nil => simp [setAssoc, getAssoc, Ne.symm h]
  | cons hd tl ih =>
      obtain ⟨k1, v1⟩ := hd
      by_cases h1 : k1 = k
      · subst h1
        simp [setAssoc, getAssoc, Ne.symm h]
      · simp only [setAssoc, if_neg h1, getAssoc]
        by_cases h2 : k1 = k'
        · simp [h2]
        · simp [h2, ih]

theorem SchemaList.toList_push :
    (ls : SchemaList) → (s : Schema) → (ls.push s).toList = ls.toList ++ [s]
  | .nil, s => rfl
  | .cons h t, s => by
      simp [SchemaList.push, SchemaList.toList, SchemaList.toList_push t s]

theorem toSchemaN_oneOfList_none : (n : Node) → (toSchemaN n).oneOfList = none
  | .str s => by
      simp only [toSchemaN]
      split <;> rfl
  | .tagged k .nil v => by
      simp only [toSchemaN]
      split_ifs <;> rfl
  | .tagged k (.cons t ts) v => by
      simp only [toSchemaN]
      split_ifs <;> first | rfl | exact toSchemaN_oneOfList_none t
  | .obj fs => by
      simp only [toSchemaN]
      rfl

theorem schemaOfItem_oneOfList_none (it : ResponseItem) :
    (schemaOfItem it).oneOfList = none := by
  cases h : it.response with
  | none => simp [schemaOfItem, h, Schema.oneOfList]
  | some r => simp [schemaOfItem, h, toSchemaN_oneOfList_none r]

theorem mem_removeDuplicatesGo (l acc : List String) (x : String) :
    x ∈ l.foldl (fun a y => if y ∈ a then a else a ++ [y]) acc ↔
      x ∈ acc ∨ x ∈ l := by
  induction l generalizing acc with
  | nil => simp
  | cons hd tl ih =>
      simp only [List.foldl_cons]
      by_cases h : hd ∈ acc
      · rw [if_pos h, ih]
        simp only [List.mem_cons]
        constructor
        · rintro (hx | hx)
          · exact Or.inl hx
          · exact Or.inr (Or.inr hx)
        · rintro (hx | hx | hx)
          · exact Or.inl hx
          · exact Or.inl (hx ▸ h)
          · exact Or.inr hx
      · rw [if_neg h, ih]
        simp only [List.mem_append, List.mem_singleton, List.mem_cons]
        tauto

theorem mem_removeDuplicates (l : List String) (x : String) :
    x ∈ removeDuplicates l ↔ x ∈ l := by
  rw [removeDuplicates, mem_removeDuplicatesGo]
  simp

theorem nodup_removeDuplicatesGo (l : List String) :
    ∀ acc : List String, acc.Nodup →
      (l.foldl (fun a y => if y ∈ a then a else a ++ [y]) acc).Nodup := by
  induction l with
  | nil => intro acc hacc; simpa using hacc
  | cons hd tl ih =>
      intro acc hacc
      simp only [List.foldl_cons]
      by_cases h : hd ∈ acc
      · rw [if_pos h]
        exact ih acc hacc
      · rw [if_neg h]
        refine ih (acc ++ [hd]) ?_
        simp [List.nodup_append, hacc, h]

theorem nodup_removeDuplicates (l : List String) :
    (removeDuplicates l).Nodup :=
  nodup_removeDuplicatesGo l [] List.nodup_nil

theorem mapE_ok_forall2 {α β : Type} (f : α → Except String β) :
    ∀ (l : List α) (res : List β), mapE f l = .ok res →
      List.Forall₂ (fun a b => f a = .ok b) l res := by
  intro l
  induction l with
  | nil =>
      intro res h
      simp only [mapE] at h
      cases h
      exact .nil
  | cons a as_ ih =>
      intro res h
      simp only [mapE] at h
      cases hfa : f a with
      | error e => rw [hfa] at h; exact (Except.noConfusion h)
      | ok b =>
          rw [hfa] at h
          cases hrest : mapE f as_ with
          | error e => rw [hrest] at h; exact (Except.noConfusion h)
          | ok bs =>
              rw [hrest] at h
              cases h
              exact .cons hfa (ih bs hrest)

theorem forall2_mem_left {α β : Type} {R : α → β → Prop} :
    ∀ {l : List α} {res : List β}, List.Forall₂ R l res →
      ∀ a ∈ l, ∃ b, b ∈ res ∧ R a b := by
  intro l res h
  induction h with
  | nil => intro a ha; cases ha
  | cons hR htl ih =>
      intro a ha
      rcases List.mem_cons.mp ha with h1 | h1
      · subst h1
        exact ⟨_, List.mem_cons_self _ _, hR⟩
      · rcases ih a h1 with ⟨b, hb, hRb⟩
        exact ⟨b, List.mem_cons_of_mem _ hb, hRb⟩

theorem mapE_ok_mem {α β : Type} (f : α → Except String β) (l : List α)
    (res : List β) (h : mapE f l = .ok res) (a : α) (ha : a ∈ l) :
    ∃ b, b ∈ res ∧ f a = .ok b :=
  forall2_mem_left (mapE_ok_forall2 f l res h) a ha

theorem processOperation_ok {gFile : String} {op : Operation}
    {arts : OpArtifacts} (h : processOperation gFile op = .ok arts) :
    ∃ bks, classifyInputs op.name op.inputs = .ok bks ∧
      arts = mkOpArtifacts gFile op bks := by
  unfold processOperation at h
  cases hc : classifyInputs op.name op.inputs with
  | error e => rw [hc] at h; exact (Except.noConfusion h)
  | ok bks =>
      rw [hc] at h
      cases h
      exact ⟨bks, rfl, rfl⟩

theorem processGroup_ok {g : String × List Operation}
    {gr : String × List OpArtifacts} (h : processGroup g = .ok gr) :
    ∃ as_, mapE (processOperation (camelcase g.1)) g.2 = .ok as_ ∧
      gr = (camelcase g.1, as_) := by
  unfold processGroup at h
  cases hm : mapE (processOperation (camelcase g.1)) g.2 with
  | error e => rw [hm] at h; exact (Except.noConfusion h)
  | ok as_ =>
      rw [hm] at h
      cases h
      exact ⟨as_, rfl, rfl⟩

theorem generateClientSdk_ok {spec : Spec} {res : GenResult}
    (h : generateClientSdk spec = .ok res) :
    ∃ gs, mapE processGroup spec.groups = .ok gs ∧ res = assembleGen spec gs := by
  unfold generateClientSdk at h
  cases hm : mapE processGroup spec.groups with
  | error e => rw [hm] at h; exact (Except.noConfusion h)
  | ok gs =>
      rw [hm] at h
      cases h
      exact ⟨gs, rfl, rfl⟩

theorem mkOpArtifacts_importNames (gFile : String) (op : Operation)
    (bks : Buckets) :
    (mkOpArtifacts gFile op bks).importNames = opNamedImports op := by
  by_cases h : op.type = "sse" <;> simp [mkOpArtifacts, opNamedImports, h]

theorem mkOpArtifacts_decl (gFile : String) (op : Operation) (bks : Buckets) :
    (mkOpArtifacts gFile op bks).decl =
      { name := camelcase (op.name ++ " schema"),
        body :=
          if op.schemas.length = 1 then
            .direct (((op.schemas.head?).map Prod.snd).getD "")
          else .litObject op.schemas } := by
  by_cases h : op.type = "sse" <;> simp [mkOpArtifacts, h]

theorem mapE_processOperation_importNames {gFile : String}
    {ops : List Operation} {as_ : List OpArtifacts}
    (h : mapE (processOperation gFile) ops = .ok as_) :
    (as_.map (fun a => a.importNames)).flatten =
      (ops.map opNamedImports).flatten := by
  have hf := mapE_ok_forall2 (processOperation gFile) ops as_ h
  clear h
  induction hf with
  | nil => rfl
  | cons hfa _ ih =>
      obtain ⟨bks, _, harts⟩ := processOperation_ok hfa
      simp only [List.map_cons, List.flatten_cons, ih, harts,
        mkOpArtifacts_importNames]

theorem mapE_processGroup_importNames {groups : List (String × List Operation)}
    {gs : List (String × List OpArtifacts)}
    (h : mapE processGroup groups = .ok gs) :
    (((gs.map (fun g => g.2)).flatten.map (fun a => a.importNames)).flatten) =
      ((groups.map (fun g => (g.2.map opNamedImports).flatten)).flatten) := by
  have hf := mapE_ok_forall2 processGroup groups gs h
  clear h
  induction hf with
  | nil => rfl
  | cons hg _ ih =>
      obtain ⟨as_, hm, hgr⟩ := processGroup_ok hg
      simp only [List.map_cons, List.flatten_cons, List.map_append,
        List.flatten_append, ih, hgr, mapE_processOperation_importNames hm]

/-- C1. For every operation and every schema variant, the key inserted
into the endpoint registry (the `Emitter`/`StreamEmitter` entry list) is
character-for-character the string inserted into the request-dispatch
table (the `SchemaEndpoint` entry list) for that same variant: the two
entry lists carry pairwise equal keys, and every key is the optional
content-type prefix followed by the uppercased HTTP method, a space, and
the path. -/
theorem C1_key_correlation (gFile : String) (op : Operation)
    (arts : OpArtifacts) (h : processOperation gFile op = .ok arts) :
    arts.schemaEntries.map Prod.fst =
      arts.streamEntries.map Prod.fst ++ arts.emitterEntries.map Prod.fst ∧
    ∀ k ∈ arts.schemaEntries.map Prod.fst, ∃ pre,
      k = pre ++ upper op.trigger.method ++ " " ++ op.trigger.path := by
  obtain ⟨bks, hc, harts⟩ := processOperation_ok h
  subst harts
  by_cases ht : op.type = "sse"
  · refine ⟨by simp [mkOpArtifacts, ht], ?_⟩
    intro k hk
    simp only [mkOpArtifacts, ht, if_pos, List.map_cons, List.map_nil,
      List.mem_singleton] at hk
    refine ⟨"", ?_⟩
    rw [hk]
    rfl
  · refine ⟨by simp [mkOpArtifacts, ht, List.map_map], ?_⟩
    intro k hk
    have hk2 : k ∈ (mkOpArtifacts gFile op bks).schemaEntries.map Prod.fst := hk
    rw [show (mkOpArtifacts gFile op bks).schemaEntries =
        op.schemas.map (fun v =>
          ((if decide (1 < op.schemas.length) = true ∧ v.1 ≠ "json" then
              v.1 ++ " " else "") ++
            upper op.trigger.method ++ " " ++ op.trigger.path,
           { registry := "Endpoints",
             schemaRef := gFile ++ "." ++ camelcase (op.name ++ " schema") ++
               (if decide (1 < op.schemas.length) = true then "." ++ v.1
                else ""),
             encoder := encoderOf op,
             inputHeaders := bks.headers, inputQuery := bks.query,
             inputBody := bks.body, inputParams := bks.params }))
      from by simp [mkOpArtifacts, ht], List.map_map] at hk2
    obtain ⟨v, _, hv⟩ := List.mem_map.mp hk2
    exact ⟨if decide (1 < op.schemas.length) = true ∧ v.1 ≠ "json" then
             v.1 ++ " " else "", hv.symm⟩

/-- C1 witness: a concrete two-variant standard operation processed
successfully, with the correlation instantiated. -/
theorem C1_key_correlation_witness :
    processOperation "g" stdOpTwoVariants =
      .ok (okOr (processOperation "g" stdOpTwoVariants) default) ∧
    ((okOr (processOperation "g" stdOpTwoVariants) default).schemaEntries.map
        Prod.fst =
      (okOr (processOperation "g" stdOpTwoVariants) default).streamEntries.map
          Prod.fst ++
        (okOr (processOperation "g" stdOpTwoVariants) default).emitterEntries.map
          Prod.fst ∧
      ∀ k ∈ (okOr (processOperation "g" stdOpTwoVariants) default).schemaEntries.map
          Prod.fst, ∃ pre,
        k = pre ++ upper stdOpTwoVariants.trigger.method ++ " " ++
          stdOpTwoVariants.trigger.path) :=
  ⟨rfl,
   C1_key_correlation "g" stdOpTwoVariants
     (okOr (processOperation "g" stdOpTwoVariants) default) rfl⟩

/-- C9. For every streaming (`sse`) operation, the dispatch-table entry
always encodes the request body with the `json` encoder regardless of the
operation's declared `contentType`, and its single endpoint key never
carries a content-type variant prefix even when the operation declares
several schema variants. -/
theorem C9_sse_json_unprefixed (gFile : String) (op : Operation)
    (arts : OpArtifacts) (hsse : op.type = "sse")
    (h : processOperation gFile op = .ok arts) :
    arts.schemaEntries.map (fun p => p.2.encoder) = ["json"] ∧
    arts.schemaEntries.map Prod.fst =
      [upper op.trigger.method ++ " " ++ op.trigger.path] ∧
    arts.streamEntries.map Prod.fst =
      [upper op.trigger.method ++ " " ++ op.trigger.path] := by
  obtain ⟨bks, hc, harts⟩ := processOperation_ok h
  subst harts
  simp [mkOpArtifacts, hsse]

/-- C9 witness: a concrete streaming operation declaring two schema
variants and a `urlencoded` content type still dispatches with `json` and
an unprefixed key. -/
theorem C9_sse_json_unprefixed_witness :
    sseOpTwoVariants.type = "sse" ∧
    processOperation "g" sseOpTwoVariants =
      .ok (okOr (processOperation "g" sseOpTwoVariants) default) ∧
    ((okOr (processOperation "g" sseOpTwoVariants) default).schemaEntries.map
        (fun p => p.2.encoder) = ["json"] ∧
      (okOr (processOperation "g" sseOpTwoVariants) default).schemaEntries.map
          Prod.fst =
        [upper sseOpTwoVariants.trigger.method ++ " " ++
          sseOpTwoVariants.trigger.path] ∧
      (okOr (processOperation "g" sseOpTwoVariants) default).streamEntries.map
          Prod.fst =
        [upper sseOpTwoVariants.trigger.method ++ " " ++
          sseOpTwoVariants.trigger.path]) :=
  ⟨by decide, rfl,
   C9_sse_json_unprefixed "g" sseOpTwoVariants
     (okOr (processOperation "g" sseOpTwoVariants) default) (by decide) rfl⟩

/-- C5 (amended). Every streaming operation goes to the separate
`StreamEndpoints` registry — it contributes no entry to the standard
`Endpoints` registry and no error identifier to the error-union and
shared error-import machinery — but its request-building entries live in
the same single dispatch table as those of standard operations, typed
against the stream registry. -/
theorem C5_stream_separation (gFile : String) (op : Operation)
    (arts : OpArtifacts) (hsse : op.type = "sse")
    (h : processOperation gFile op = .ok arts) :
    arts.emitterEntries = [] ∧ arts.errs = [] ∧
    arts.streamEntries.map Prod.fst = arts.schemaEntries.map Prod.fst ∧
    arts.schemaEntries ≠ [] ∧
    ∀ p ∈ arts.schemaEntries, p.2.registry = "StreamEndpoints" := by
  obtain ⟨bks, hc, harts⟩ := processOperation_ok h
  subst harts
  simp [mkOpArtifacts, hsse]

/-- C5 witness: the concrete streaming operation instantiating the
amended separation statement. -/
theorem C5_stream_separation_witness :
    sseOpTwoVariants.type = "sse" ∧
    processOperation "g" sseOpTwoVariants =
      .ok (okOr (processOperation "g" sseOpTwoVariants) default) ∧
    ((okOr (processOperation "g" sseOpTwoVariants) default).emitterEntries = [] ∧
      (okOr (processOperation "g" sseOpTwoVariants) default).errs = [] ∧
      (okOr (processOperation "g" sseOpTwoVariants) default).streamEntries.map
          Prod.fst =
        (okOr (processOperation "g" sseOpTwoVariants) default).schemaEntries.map
          Prod.fst ∧
      (okOr (processOperation "g" sseOpTwoVariants) default).schemaEntries ≠ [] ∧
      ∀ p ∈ (okOr (processOperation "g" sseOpTwoVariants) default).schemaEntries,
        p.2.registry = "StreamEndpoints") :=
  ⟨by decide, rfl,
   C5_stream_separation "g" sseOpTwoVariants
     (okOr (processOperation "g" sseOpTwoVariants) default) (by decide) rfl⟩

/-- C5 counterexample to the claim as stated: in `mixedSpec` (one
streaming, one standard operation) the whole run succeeds and the single
request-dispatch table — the one that also dispatches the standard
operation `POST /pets` — contains the streaming operation's entry
`GET /pets/watch`, so a streaming operation's entry does appear in the
dispatch table serving standard operations (there is no separate stream
dispatch table). -/
theorem C5_stream_separation_counterexample :
    generateClientSdk mixedSpec =
      .ok (okOr (generateClientSdk mixedSpec) default) ∧
    (okOr (generateClientSdk mixedSpec) default).schemaEndpoints.map Prod.fst =
      ["GET /pets/watch", "POST /pets", "urlencoded POST /pets"] := by
  exact ⟨rfl, by decide⟩

/-- C7 (amended). For every standard operation, each endpoint-registry
entry's error type is the union of the operation's declared error
identifiers plus a `ParseError` parameterized by that variant's input
type; the default `ServerError` fallback is included exactly when the
`errors` field is absent (`??` guards a nullish field, not an empty
list); and the artifact-set error import list contains each collected
error identifier exactly once. -/
theorem C7_error_union :
    (∀ gFile op arts, processOperation gFile op = .ok arts →
      op.type ≠ "sse" →
      ∀ p ∈ arts.emitterEntries, ∃ ie,
        p.2.input = "z.infer<" ++ ie ++ ">" ∧
        p.2.errorUnion =
          (op.errors.getD ["ServerError"]) ++ ["ParseError<" ++ ie ++ ">"]) ∧
    (∀ spec res, generateClientSdk spec = .ok res →
      res.errorImportNames = removeDuplicates res.errors ∧
      res.errorImportNames.Nodup ∧
      (∀ x, x ∈ res.errorImportNames ↔ x ∈ res.errors)) := by
  constructor
  · intro gFile op arts h hstd p hp
    obtain ⟨bks, hc, harts⟩ := processOperation_ok h
    subst harts
    rw [show (mkOpArtifacts gFile op bks).emitterEntries =
        op.schemas.map (fun v =>
          ((if decide (1 < op.schemas.length) = true ∧ v.1 ≠ "json" then
              v.1 ++ " " else "") ++
            upper op.trigger.method ++ " " ++ op.trigger.path,
           { input := "z.infer<" ++
               ("typeof " ++ (gFile ++ "." ++ camelcase (op.name ++ " schema")) ++
                 (if decide (1 < op.schemas.length) = true then "." ++ v.1
                  else "")) ++ ">",
             output := op.formatOutput.use,
             errorUnion :=
               (op.errors.getD ["ServerError"]) ++
                 ["ParseError<" ++
                   ("typeof " ++
                     (gFile ++ "." ++ camelcase (op.name ++ " schema")) ++
                     (if decide (1 < op.schemas.length) = true then "." ++ v.1
                      else "")) ++ ">"] }))
      from by simp [mkOpArtifacts, hstd]] at hp
    obtain ⟨v, _, rfl⟩ := List.mem_map.mp hp
    exact ⟨_, rfl, rfl⟩
  · intro spec res h
    obtain ⟨gs, hm, hres⟩ := generateClientSdk_ok h
    subst hres
    refine ⟨rfl, nodup_removeDuplicates _, fun x => mem_removeDuplicates _ x⟩

/-- C7 witness: the two-variant operation instantiates the per-entry
error-union statement, and the mixed specification instantiates the
deduplicated import statement. -/
theorem C7_error_union_witness :
    (∀ p ∈ (okOr (processOperation "g" stdOpTwoVariants) default).emitterEntries,
      ∃ ie, p.2.input = "z.infer<" ++ ie ++ ">" ∧
        p.2.errorUnion = (stdOpTwoVariants.errors.getD ["ServerError"]) ++
          ["ParseError<" ++ ie ++ ">"]) ∧
    ((okOr (generateClientSdk mixedSpec) default).errorImportNames =
      removeDuplicates (okOr (generateClientSdk mixedSpec) default).errors ∧
     (okOr (generateClientSdk mixedSpec) default).errorImportNames.Nodup ∧
     ∀ x, x ∈ (okOr (generateClientSdk mixedSpec) default).errorImportNames ↔
       x ∈ (okOr (generateClientSdk mixedSpec) default).errors) :=
  ⟨C7_error_union.1 "g" stdOpTwoVariants
     (okOr (processOperation "g" stdOpTwoVariants) default) rfl (by decide),
   C7_error_union.2 mixedSpec (okOr (generateClientSdk mixedSpec) default) rfl⟩

/-- C7 counterexample to the claim as stated: `emptyErrorsOp` declares no
error identifiers (an explicitly empty `errors` list), yet its generated
registry entry's error union is just the `ParseError` — the default
fallback identifier is not included, because `operation.errors ??
['ServerError']` only replaces a nullish field, not an empty list
(`sdk.ts` line 220). -/
theorem C7_error_union_counterexample :
    emptyErrorsOp.errors = some [] ∧
    (okOr (processOperation "g" emptyErrorsOp) default).emitterEntries.map
        (fun p => p.2.errorUnion) =
      [["ParseError<typeof g.ping schema>"]] ∧
    ∀ p ∈ (okOr (processOperation "g" emptyErrorsOp) default).emitterEntries,
      "ServerError" ∉ p.2.errorUnion := by
  refine ⟨rfl, by decide, by decide⟩

/-- C10. Every generated per-group schema module carries the same
shared import component: the deduplicated named imports collected from
the operations of all groups of the specification, not only those of its
own group. -/
theorem C10_shared_imports (spec : Spec) (res : GenResult)
    (h : generateClientSdk spec = .ok res) :
    res.schemasImports = allNamedImports spec ∧
    ∀ f ∈ res.inputsFiles,
      f.2.sharedImportNames = removeDuplicates (allNamedImports spec) := by
  obtain ⟨gs, hm, hres⟩ := generateClientSdk_ok h
  subst hres
  have himp := mapE_processGroup_importNames hm
  constructor
  · simpa [assembleGen, allNamedImports] using himp
  · intro f hf
    simp only [assembleGen, List.mem_map] at hf
    obtain ⟨g, hg, rfl⟩ := hf
    simpa [assembleGen, allNamedImports] using congrArg removeDuplicates himp

/-- C10 witness: in `importsSpec` both generated schema modules are
prefixed with the deduplicated union of all groups' named imports. -/
theorem C10_shared_imports_witness :
    generateClientSdk importsSpec =
      .ok (okOr (generateClientSdk importsSpec) default) ∧
    (okOr (generateClientSdk importsSpec) default).inputsFiles.map
        (fun f => f.2.sharedImportNames) =
      [["PetId", "Shared"], ["PetId", "Shared"]] ∧
    ((okOr (generateClientSdk importsSpec) default).schemasImports =
      allNamedImports importsSpec ∧
     ∀ f ∈ (okOr (generateClientSdk importsSpec) default).inputsFiles,
       f.2.sharedImportNames = removeDuplicates (allNamedImports importsSpec)) :=
  ⟨rfl, by decide,
   C10_shared_imports importsSpec (okOr (generateClientSdk importsSpec) default)
     rfl⟩

theorem classifyInputs_ok_filters (nm : String) :
    ∀ (inputs : List (String × OperationInput)) (bks : Buckets),
      classifyInputs nm inputs = .ok bks →
      bks.headers = (inputs.filter (fun x =>
          x.2.source = "headers" ∨ x.2.source = "header")).map Prod.fst ∧
      bks.query = (inputs.filter (fun x => x.2.source = "query")).map Prod.fst ∧
      bks.body = (inputs.filter (fun x => x.2.source = "body")).map Prod.fst ∧
      bks.params = (inputs.filter (fun x => x.2.source = "path")).map Prod.fst := by
  intro inputs
  induction inputs with
  | nil =>
      intro bks h
      simp only [classifyInputs] at h
      cases h
      simp
  | cons hd tl ih =>
      obtain ⟨n, p⟩ := hd
      intro bks h
      simp only [classifyInputs] at h
      by_cases h1 : p.source = "headers" ∨ p.source = "header"
      · rw [if_pos h1] at h
        cases hr : classifyInputs nm tl with
        | error e => rw [hr] at h; exact (Except.noConfusion h)
        | ok b =>
            rw [hr] at h
            cases h
            obtain ⟨e1, e2, e3, e4⟩ := ih b hr
            have hq : ¬ p.source = "query" := by
              rcases h1 with h1 | h1 <;> simp [h1]
            have hb : ¬ p.source = "body" := by
              rcases h1 with h1 | h1 <;> simp [h1]
            have hp : ¬ p.source = "path" := by
              rcases h1 with h1 | h1 <;> simp [h1]
            refine ⟨?_, ?_, ?_, ?_⟩ <;>
              simp [List.filter_cons, h1, hq, hb, hp, e1, e2, e3, e4]
      · rw [if_neg h1] at h
        have hh : ¬ (p.source = "headers" ∨ p.source = "header") := h1
        by_cases h2 : p.source = "query"
        · rw [if_pos h2] at h
          cases hr : classifyInputs nm tl with
          | error e => rw [hr] at h; exact (Except.noConfusion h)
          | ok b =>
              rw [hr] at h
              cases h
              obtain ⟨e1, e2, e3, e4⟩ := ih b hr
              have hb : ¬ p.source = "body" := by simp [h2]
              have hp : ¬ p.source = "path" := by simp [h2]
              refine ⟨?_, ?_, ?_, ?_⟩ <;>
                simp [List.filter_cons, hh, h2, hb, hp, e1, e2, e3, e4]
        · rw [if_neg h2] at h
          by_cases h3 : p.source = "body"
          · rw [if_pos h3] at h
            cases hr : classifyInputs nm tl with
            | error e => rw [hr] at h; exact (Except.noConfusion h)
            | ok b =>
                rw [hr] at h
                cases h
                obtain ⟨e1, e2, e3, e4⟩ := ih b hr
                have hp : ¬ p.source = "path" := by simp [h3]
                refine ⟨?_, ?_, ?_, ?_⟩ <;>
                  simp [List.filter_cons, hh, h2, h3, hp, e1, e2, e3, e4]
          · rw [if_neg h3] at h
            by_cases h4 : p.source = "path"
            · rw [if_pos h4] at h
              cases hr : classifyInputs nm tl with
              | error e => rw [hr] at h; exact (Except.noConfusion h)
              | ok b =>
                  rw [hr] at h
                  cases h
                  obtain ⟨e1, e2, e3, e4⟩ := ih b hr
                  refine ⟨?_, ?_, ?_, ?_⟩ <;>
                    simp [List.filter_cons, hh, h2, h3, h4, e1, e2, e3, e4]
            · rw [if_neg h4] at h
              by_cases h5 : p.source = "internal"
              · rw [if_pos h5] at h
                obtain ⟨e1, e2, e3, e4⟩ := ih bks h
                refine ⟨?_, ?_, ?_, ?_⟩ <;>
                  simp [List.filter_cons, hh, h2, h3, h4, e1, e2, e3, e4]
              · rw [if_neg h5] at h
                exact (Except.noConfusion h)

theorem classifyInputs_error (nm : String) :
    ∀ (inputs : List (String × OperationInput)) (e : String),
      classifyInputs nm inputs = .error e →
      ∃ n p, (n, p) ∈ inputs ∧
        p.source ∉ (["headers", "header", "query", "body", "path",
          "internal"] : List String) ∧
        e = unknownSourceMsg nm n p := by
  intro inputs
  induction inputs with
  | nil =>
      intro e h
      simp only [classifyInputs] at h
      exact (Except.noConfusion h)
  | cons hd tl ih =>
      obtain ⟨n, p⟩ := hd
      intro e h
      simp only [classifyInputs] at h
      by_cases h1 : p.source = "headers" ∨ p.source = "header"
      · rw [if_pos h1] at h
        cases hr : classifyInputs nm tl with
        | error e2 =>
            rw [hr] at h
            cases h
            obtain ⟨n2, p2, hmem, hsrc, heq⟩ := ih e hr
            exact ⟨n2, p2, List.mem_cons_of_mem _ hmem, hsrc, heq⟩
        | ok b => rw [hr] at h; exact (Except.noConfusion h)
      · rw [if_neg h1] at h
        by_cases h2 : p.source = "query"
        · rw [if_pos h2] at h
          cases hr : classifyInputs nm tl with
          | error e2 =>
              rw [hr] at h
              cases h
              obtain ⟨n2, p2, hmem, hsrc, heq⟩ := ih e hr
              exact ⟨n2, p2, List.mem_cons_of_mem _ hmem, hsrc, heq⟩
          | ok b => rw [hr] at h; exact (Except.noConfusion h)
        · rw [if_neg h2] at h
          by_cases h3 : p.source = "body"
          · rw [if_pos h3] at h
            cases hr : classifyInputs nm tl with
            | error e2 =>
                rw [hr] at h
                cases h
                obtain ⟨n2, p2, hmem, hsrc, heq⟩ := ih e hr
                exact ⟨n2, p2, List.mem_cons_of_mem _ hmem, hsrc, heq⟩
            | ok b => rw [hr] at h; exact (Except.noConfusion h)
          · rw [if_neg h3] at h
            by_cases h4 : p.source = "path"
            · rw [if_pos h4] at h
              cases hr : classifyInputs nm tl with
              | error e2 =>
                  rw [hr] at h
                  cases h
                  obtain ⟨n2, p2, hmem, hsrc, heq⟩ := ih e hr
                  exact ⟨n2, p2, List.mem_cons_of_mem _ hmem, hsrc, heq⟩
              | ok b => rw [hr] at h; exact (Except.noConfusion h)
            · rw [if_neg h4] at h
              by_cases h5 : p.source = "internal"
              · rw [if_pos h5] at h
                obtain ⟨n2, p2, hmem, hsrc, heq⟩ := ih e h
                exact ⟨n2, p2, List.mem_cons_of_mem _ hmem, hsrc, heq⟩
              · rw [if_neg h5] at h
                cases h
                refine ⟨n, p, List.mem_cons_self _ _, ?_, rfl⟩
                simp only [List.mem_cons, List.mem_singleton, List.not_mem_nil]
                push_neg
                have hhh : ¬ p.source = "headers" := fun hx => h1 (Or.inl hx)
                have hhd : ¬ p.source = "header" := fun hx => h1 (Or.inr hx)
                simp [hhh, hhd, h2, h3, h4, h5]

theorem assoc_nodup_unique {α : Type} :
    ∀ (l : List (String × α)), (l.map Prod.fst).Nodup →
      ∀ (n : String) (a b : α), (n, a) ∈ l → (n, b) ∈ l → a = b := by
  intro l
  induction l with
  | nil => intro _ n a b ha; cases ha
  | cons hd tl ih =>
      intro hnd n a b ha hb
      simp only [List.map_cons, List.nodup_cons] at hnd
      rcases List.mem_cons.mp ha with h1 | h1 <;>
        rcases List.mem_cons.mp hb with h2 | h2
      · have h3 : (n, a) = (n, b) := h1.trans h2.symm
        exact (Prod.mk.injEq _ _ _ _).mp h3 |>.2
      · exfalso
        apply hnd.1
        rw [← h1]
        exact List.mem_map.mpr ⟨(n, b), h2, rfl⟩
      · exfalso
        apply hnd.1
        rw [← h2]
        exact List.mem_map.mpr ⟨(n, a), h1, rfl⟩
      · exact ih hnd.2 n a b h1 h2

theorem mem_map_fst_filter {α : Type} (l : List (String × α))
    (f : String × α → Bool) (n : String) :
    n ∈ (l.filter f).map Prod.fst ↔ ∃ a, (n, a) ∈ l ∧ f (n, a) = true := by
  constructor
  · intro h
    rcases List.mem_map.mp h with ⟨x, hx, hxn⟩
    rcases List.mem_filter.mp hx with ⟨hmem, hf⟩
    refine ⟨x.2, ?_, ?_⟩
    · rwa [show (n, x.2) = x from by rw [← hxn]]
    · rwa [show (n, x.2) = x from by rw [← hxn]]
  · rintro ⟨a, hmem, hf⟩
    exact List.mem_map.mpr ⟨(n, a), List.mem_filter.mpr ⟨hmem, hf⟩, rfl⟩

/-- C6. Every declared input field whose source is not `internal` lands in
exactly one of the four buckets (header, query, body, path) selected by
its source — `internal` fields land in none — and any other source value
makes classification fail with the message naming the offending field and
operation, which aborts generation for the whole specification (a
successful `generateClientSdk` run implies every operation of every group
classified successfully). -/
theorem C6_bucket_partition :
    (∀ nm inputs bks, classifyInputs nm inputs = .ok bks →
      (inputs.map Prod.fst).Nodup →
      ∀ n p, (n, p) ∈ inputs →
        ((p.source = "internal" →
           n ∉ bks.headers ∧ n ∉ bks.query ∧ n ∉ bks.body ∧ n ∉ bks.params) ∧
         ((p.source = "headers" ∨ p.source = "header") →
           n ∈ bks.headers ∧ n ∉ bks.query ∧ n ∉ bks.body ∧ n ∉ bks.params) ∧
         (p.source = "query" →
           n ∈ bks.query ∧ n ∉ bks.headers ∧ n ∉ bks.body ∧ n ∉ bks.params) ∧
         (p.source = "body" →
           n ∈ bks.body ∧ n ∉ bks.headers ∧ n ∉ bks.query ∧ n ∉ bks.params) ∧
         (p.source = "path" →
           n ∈ bks.params ∧ n ∉ bks.headers ∧ n ∉ bks.query ∧ n ∉ bks.body))) ∧
    (∀ nm inputs e, classifyInputs nm inputs = .error e →
      ∃ n p, (n, p) ∈ inputs ∧
        p.source ∉ (["headers", "header", "query", "body", "path",
          "internal"] : List String) ∧
        e = unknownSourceMsg nm n p) ∧
    (∀ spec res, generateClientSdk spec = .ok res →
      ∀ g ∈ spec.groups, ∀ op ∈ g.2, ∃ bks,
        classifyInputs op.name op.inputs = .ok bks) := by
  refine ⟨?_, classifyInputs_error, ?_⟩
  · intro nm inputs bks h hnd n p hnp
    obtain ⟨e1, e2, e3, e4⟩ := classifyInputs_ok_filters nm inputs bks h
    have hmh : n ∈ bks.headers ↔
        (p.source = "headers" ∨ p.source = "header") := by
      rw [e1, mem_map_fst_filter]
      constructor
      · rintro ⟨a, hm, hf⟩
        have ha := assoc_nodup_unique inputs hnd n a p hm hnp
        subst ha
        simpa using hf
      · intro hs
        exact ⟨p, hnp, by simpa using hs⟩
    have hmq : n ∈ bks.query ↔ p.source = "query" := by
      rw [e2, mem_map_fst_filter]
      constructor
      · rintro ⟨a, hm, hf⟩
        have ha := assoc_nodup_unique inputs hnd n a p hm hnp
        subst ha
        simpa using hf
      · intro hs
        exact ⟨p, hnp, by simpa using hs⟩
    have hmb : n ∈ bks.body ↔ p.source = "body" := by
      rw [e3, mem_map_fst_filter]
      constructor
      · rintro ⟨a, hm, hf⟩
        have ha := assoc_nodup_unique inputs hnd n a p hm hnp
        subst ha
        simpa using hf
      · intro hs
        exact ⟨p, hnp, by simpa using hs⟩
    have hmp : n ∈ bks.params ↔ p.source = "path" := by
      rw [e4, mem_map_fst_filter]
      constructor
      · rintro ⟨a, hm, hf⟩
        have ha := assoc_nodup_unique inputs hnd n a p hm hnp
        subst ha
        simpa using hf
      · intro hs
        exact ⟨p, hnp, by simpa using hs⟩
    refine ⟨?_, ?_, ?_, ?_, ?_⟩
    · intro hs
      refine ⟨?_, ?_, ?_, ?_⟩ <;> simp [hmh, hmq, hmb, hmp, hs]
    · intro hs
      rcases hs with hs | hs <;>
        refine ⟨?_, ?_, ?_, ?_⟩ <;> simp [hmh, hmq, hmb, hmp, hs]
    · intro hs
      refine ⟨?_, ?_, ?_, ?_⟩ <;> simp [hmh, hmq, hmb, hmp, hs]
    · intro hs
      refine ⟨?_, ?_, ?_, ?_⟩ <;> simp [hmh, hmq, hmb, hmp, hs]
    · intro hs
      refine ⟨?_, ?_, ?_, ?_⟩ <;> simp [hmh, hmq, hmb, hmp, hs]
  · intro spec res h g hg op hop
    obtain ⟨gs, hm, _⟩ := generateClientSdk_ok h
    obtain ⟨gr, _, hpg⟩ := mapE_ok_mem processGroup spec.groups gs hm g hg
    obtain ⟨as_, hmops, _⟩ := processGroup_ok hpg
    obtain ⟨arts, _, hpo⟩ :=
      mapE_ok_mem (processOperation (camelcase g.1)) g.2 as_ hmops op hop
    obtain ⟨bks, hc, _⟩ := processOperation_ok hpo
    exact ⟨bks, hc⟩

/-- C6 witness: the concrete two-input operation classifies with `id`
only in the path bucket; a concrete unknown source produces the naming
error message; and the successful mixed run classified every operation. -/
theorem C6_bucket_partition_witness :
    classifyInputs "createPet" stdOpTwoVariants.inputs =
      .ok (okOr (classifyInputs "createPet" stdOpTwoVariants.inputs) default) ∧
    ("id" ∈ (okOr (classifyInputs "createPet" stdOpTwoVariants.inputs)
        default).params ∧
      "id" ∉ (okOr (classifyInputs "createPet" stdOpTwoVariants.inputs)
        default).headers ∧
      "id" ∉ (okOr (classifyInputs "createPet" stdOpTwoVariants.inputs)
        default).query ∧
      "id" ∉ (okOr (classifyInputs "createPet" stdOpTwoVariants.inputs)
        default).body) ∧
    (∃ n p, (n, p) ∈ [("f", badSourceInput)] ∧
      p.source ∉ (["headers", "header", "query", "body", "path",
        "internal"] : List String) ∧
      unknownSourceMsg "bad" "f" badSourceInput = unknownSourceMsg "bad" n p) ∧
    (∀ g ∈ mixedSpec.groups, ∀ op ∈ g.2, ∃ bks,
      classifyInputs op.name op.inputs = .ok bks) :=
  ⟨rfl,
   (C6_bucket_partition.1 "createPet" stdOpTwoVariants.inputs
     (okOr (classifyInputs "createPet" stdOpTwoVariants.inputs) default)
     rfl (by decide) "id" { source := "path", schema := "z.string()" }
     (by decide)).2.2.2.2 rfl,
   C6_bucket_partition.2.1 "bad" [("f", badSourceInput)]
     (unknownSourceMsg "bad" "f" badSourceInput) rfl,
   C6_bucket_partition.2.2 mixedSpec (okOr (generateClientSdk mixedSpec) default)
     rfl⟩

/-- Two more concrete JSON response items for the same status code. -/
def jsonItemNum : ResponseItem :=
  ⟨"200", some (.str "number"), "application/json", []⟩

/-- A third, distinct concrete JSON response item. -/
def jsonItemBool : ResponseItem :=
  ⟨"200", some (.str "boolean"), "application/json", []⟩

/-- C2, evaluated at the failing input. `getPaths` invokes the configured
hook exactly once for the single accumulated operation, after that
operation's entry is inserted (the map at call time already contains it),
and the hook returns a non-empty fragment for `/extra`; yet the mapping
`getPaths` returns has no `/extra` entry: the fragment is never merged,
because `Object.assign(operations, operations ?? \x7b\x7d)` acts on the
shadowing local binding (`paths.ts` lines 212–220). -/
theorem C2_hook_fragment_not_merged :
    (getPaths evExternal none (some hookReturningFragment) [pathsOpA]).2.length
      = 1 ∧
    (∀ c ∈ (getPaths evExternal none (some hookReturningFragment)
        [pathsOpA]).2,
      getAssoc c.mapAtCall c.path = some [(c.method, c.operation)] ∧
      c.returned = hookFragment) ∧
    hookFragment ≠ [] ∧
    getAssoc (getPaths evExternal none (some hookReturningFragment)
      [pathsOpA]).1 "/extra" = none := by
  refine ⟨rfl, by decide, by decide, by decide⟩

theorem addResponseItem_idem (acc : List (String × ResponseEntry))
    (it : ResponseItem) (hct : it.contentType ≠ "application/octet-stream") :
    addResponseItem (addResponseItem acc it) it = addResponseItem acc it := by
  have hs := schemaOfItem_oneOfList_none it
  cases h1 : getAssoc acc it.statusCode with
  | none =>
      have hfirst : addResponseItem acc it =
          setAssoc acc it.statusCode
            { description := "Response for " ++ it.statusCode,
              content := [(it.contentType, schemaOfItem it)],
              headers :=
                if it.headers.isEmpty then none
                else some (it.headers.map (fun h => (h, Schema.typeS "string"))) } := by
        simp [addResponseItem, h1, hct]
      rw [hfirst]
      simp [addResponseItem, getAssoc_setAssoc_self, getAssoc, hs]
  | some entry =>
      cases h2 : getAssoc entry.content it.contentType with
      | none =>
          have hfirst : addResponseItem acc it =
              setAssoc acc it.statusCode
                { entry with
                  content := setAssoc entry.content it.contentType
                    (schemaOfItem it) } := by
            simp [addResponseItem, h1, h2]
          rw [hfirst]
          simp [addResponseItem, getAssoc_setAssoc_self, hs]
      | some existing =>
          cases h3 : existing.oneOfList with
          | some ls =>
              by_cases h4 : schemaOfItem it ∈ ls.toList
              · have hfirst : addResponseItem acc it = acc := by
                  simp [addResponseItem, h1, h2, h3, h4]
                rw [hfirst]
                exact hfirst
              · have hfirst : addResponseItem acc it =
                    setAssoc acc it.statusCode
                      { entry with
                        content := setAssoc entry.content it.contentType
                          (.oneOfS (ls.push (schemaOfItem it))) } := by
                  simp [addResponseItem, h1, h2, h3, h4]
                rw [hfirst]
                have hmem : schemaOfItem it ∈ (ls.push (schemaOfItem it)).toList := by
                  rw [SchemaList.toList_push]
                  exact List.mem_append_right _ (List.mem_singleton.mpr rfl)
                simp [addResponseItem, getAssoc_setAssoc_self, Schema.oneOfList,
                  hmem]
          | none =>
              by_cases h4 : existing = schemaOfItem it
              · have hfirst : addResponseItem acc it = acc := by
                  simp [addResponseItem, h1, h2, h3, h4, hs]
                rw [hfirst]
                exact hfirst
              · have hfirst : addResponseItem acc it =
                    setAssoc acc it.statusCode
                      { entry with
                        content := setAssoc entry.content it.contentType
                          (.oneOfS (.cons existing
                            (.cons (schemaOfItem it) .nil))) } := by
                  simp [addResponseItem, h1, h2, h3, h4]
                rw [hfirst]
                simp [addResponseItem, getAssoc_setAssoc_self, Schema.oneOfList,
                  SchemaList.toList]

theorem addResponseItem_promote (acc : List (String × ResponseEntry))
    (it : ResponseItem) (entry : ResponseEntry) (existing : Schema)
    (h1 : getAssoc acc it.statusCode = some entry)
    (h2 : getAssoc entry.content it.contentType = some existing)
    (h3 : existing.oneOfList = none) (h4 : existing ≠ schemaOfItem it) :
    getContentSchema (addResponseItem acc it) it.statusCode it.contentType =
      some (.oneOfS (.cons existing (.cons (schemaOfItem it) .nil))) := by
  simp [addResponseItem, h1, h2, h3, h4, getContentSchema,
    getAssoc_setAssoc_self]

theorem addResponseItem_append (acc : List (String × ResponseEntry))
    (it : ResponseItem) (entry : ResponseEntry) (ls : SchemaList)
    (h1 : getAssoc acc it.statusCode = some entry)
    (h2 : getAssoc entry.content it.contentType = some (.oneOfS ls))
    (h4 : schemaOfItem it ∉ ls.toList) :
    getContentSchema (addResponseItem acc it) it.statusCode it.contentType =
      some (.oneOfS (ls.push (schemaOfItem it))) := by
  simp [addResponseItem, h1, h2, Schema.oneOfList, h4, getContentSchema,
    getAssoc_setAssoc_self]

theorem addResponseItem_skip (acc : List (String × ResponseEntry))
    (it : ResponseItem) (entry : ResponseEntry) (ls : SchemaList)
    (h1 : getAssoc acc it.statusCode = some entry)
    (h2 : getAssoc entry.content it.contentType = some (.oneOfS ls))
    (h4 : schemaOfItem it ∈ ls.toList) :
    addResponseItem acc it = acc := by
  simp [addResponseItem, h1, h2, Schema.oneOfList, h4]

/-- C3 (amended). Response merging per `(statusCode, contentType)`: for
content types other than `application/octet-stream`, adding the same item
twice is idempotent (equal schemas are coalesced, never duplicated — for
octet-stream the first item stores the binary override instead of the
serialized schema, so re-adding merges them into a union, see the
counterexample); adding a second, different schema under an existing pair
replaces the entry with `oneOf [existing, new]`; a further distinct schema
is appended to the existing `oneOf` list rather than nested; and a schema
already present in the `oneOf` list is not appended again. -/
theorem C3_response_merge :
    (∀ acc it, it.contentType ≠ "application/octet-stream" →
      addResponseItem (addResponseItem acc it) it = addResponseItem acc it) ∧
    (∀ acc it entry existing,
      getAssoc acc it.statusCode = some entry →
      getAssoc entry.content it.contentType = some existing →
      existing.oneOfList = none → existing ≠ schemaOfItem it →
      getContentSchema (addResponseItem acc it) it.statusCode it.contentType =
        some (.oneOfS (.cons existing (.cons (schemaOfItem it) .nil)))) ∧
    (∀ acc it entry ls,
      getAssoc acc it.statusCode = some entry →
      getAssoc entry.content it.contentType = some (.oneOfS ls) →
      schemaOfItem it ∉ ls.toList →
      getContentSchema (addResponseItem acc it) it.statusCode it.contentType =
        some (.oneOfS (ls.push (schemaOfItem it)))) ∧
    (∀ acc it entry ls,
      getAssoc acc it.statusCode = some entry →
      getAssoc entry.content it.contentType = some (.oneOfS ls) →
      schemaOfItem it ∈ ls.toList →
      addResponseItem acc it = acc) :=
  ⟨addResponseItem_idem, addResponseItem_promote, addResponseItem_append,
   addResponseItem_skip⟩

/-- C3 witness: concrete merge sequence under `("200",
"application/json")` — idempotent re-add, promotion of a second distinct
schema to a two-element `oneOf`, appending of a third distinct schema,
and no re-append of a schema already present. -/
theorem C3_response_merge_witness :
    (jsonItem200.contentType ≠ "application/octet-stream" ∧
     addResponseItem (addResponseItem [] jsonItem200) jsonItem200 =
       addResponseItem [] jsonItem200) ∧
    getContentSchema
        (addResponseItem (responseItemToResponses [jsonItem200]) jsonItemNum)
        "200" "application/json" =
      some (.oneOfS (.cons .emptyS (.cons (.typeS "number") .nil))) ∧
    getContentSchema
        (addResponseItem (responseItemToResponses [jsonItem200, jsonItemNum])
          jsonItemBool)
        "200" "application/json" =
      some (.oneOfS (.cons .emptyS (.cons (.typeS "number")
        (.cons (.typeS "boolean") .nil)))) ∧
    addResponseItem (responseItemToResponses [jsonItem200, jsonItemNum])
        jsonItemNum =
      responseItemToResponses [jsonItem200, jsonItemNum] :=
  ⟨⟨by decide, C3_response_merge.1 [] jsonItem200 (by decide)⟩,
   C3_response_merge.2.1 (responseItemToResponses [jsonItem200]) jsonItemNum
     { description := "Response for 200",
       content := [("application/json", Schema.emptyS)], headers := none }
     Schema.emptyS (by decide) (by decide) (by decide) (by decide),
   C3_response_merge.2.2.1
     (responseItemToResponses [jsonItem200, jsonItemNum]) jsonItemBool
     { description := "Response for 200",
       content := [("application/json",
         Schema.oneOfS (.cons .emptyS (.cons (.typeS "number") .nil)))],
       headers := none }
     (.cons .emptyS (.cons (.typeS "number") .nil)) (by decide) (by decide)
     (by decide),
   C3_response_merge.2.2.2
     (responseItemToResponses [jsonItem200, jsonItemNum]) jsonItemNum
     { description := "Response for 200",
       content := [("application/json",
         Schema.oneOfS (.cons .emptyS (.cons (.typeS "number") .nil)))],
       headers := none }
     (.cons .emptyS (.cons (.typeS "number") .nil)) (by decide) (by decide)
     (by decide)⟩

/-- C3 counterexample to the claim as stated: adding the exact same
`(statusCode, contentType, schema)` octet-stream item twice does not
yield exactly one schema entry — the first add stores the binary
override, the second add compares the serialized declared schema against
it, finds them different, and produces a two-element `oneOf` union
(`paths.ts` lines 118–119 against 146–150). -/
theorem C3_response_merge_counterexample :
    getContentSchema (responseItemToResponses [octetItem]) "200"
        "application/octet-stream" = some Schema.binaryS ∧
    getContentSchema (responseItemToResponses [octetItem, octetItem]) "200"
        "application/octet-stream" =
      some (.oneOfS (.cons .binaryS (.cons (.typeS "number") .nil))) := by
  exact ⟨by decide, by decide⟩

/-- C4 (amended). An octet-stream response item that is the first item
for its status code stores exactly the binary override
`\x7btype: string, format: binary\x7d`, regardless of its declared
response type; but an octet-stream item added later as a sibling content
entry under an already-present status code stores the serialized declared
response type instead — the override is applied only in the
entry-creating branch (`paths.ts` lines 117–120 against line 134). -/
theorem C4_octet_override (acc : List (String × ResponseEntry))
    (it : ResponseItem) (hct : it.contentType = "application/octet-stream") :
    (getAssoc acc it.statusCode = none →
      getContentSchema (addResponseItem acc it) it.statusCode it.contentType =
        some Schema.binaryS) ∧
    (∀ entry, getAssoc acc it.statusCode = some entry →
      getAssoc entry.content it.contentType = none →
      getContentSchema (addResponseItem acc it) it.statusCode it.contentType =
        some (schemaOfItem it)) := by
  constructor
  · intro h1
    simp [addResponseItem, h1, hct, getContentSchema, getAssoc_setAssoc_self,
      getAssoc]
  · intro entry h1 h2
    simp [addResponseItem, h1, h2, getContentSchema, getAssoc_setAssoc_self]

/-- C4 witness: the override applied on a fresh status code, and the
serialized declared type stored for a sibling octet-stream entry. -/
theorem C4_octet_override_witness :
    octetItem.contentType = "application/octet-stream" ∧
    getContentSchema (addResponseItem [] octetItem) "200"
        "application/octet-stream" = some Schema.binaryS ∧
    getContentSchema
        (addResponseItem (responseItemToResponses [jsonItem200]) octetItem)
        "200" "application/octet-stream" = some (.typeS "number") :=
  ⟨rfl,
   (C4_octet_override [] octetItem rfl).1 (by decide),
   (C4_octet_override (responseItemToResponses [jsonItem200]) octetItem rfl).2
     { description := "Response for 200",
       content := [("application/json", Schema.emptyS)], headers := none }
     (by decide) (by decide)⟩

/-- C4 counterexample to the claim as stated: an octet-stream item added
as a later sibling content entry under an existing status code stores the
serialized declared response type, not the binary override. -/
theorem C4_octet_override_counterexample :
    getContentSchema (responseItemToResponses [jsonItem200, octetItem]) "200"
        "application/octet-stream" = some (.typeS "number") ∧
    (Schema.typeS "number") ≠ Schema.binaryS := by
  exact ⟨by decide, by decide⟩

mutual
theorem noLeak_toSchemaN : (n : Node) → n.wf = true →
    (toSchemaN n).noLeak = true
  | .str s => by
      intro _
      simp only [toSchemaN]
      split <;> rfl
  | .tagged k .nil v => by
      intro hw
      simp only [toSchemaN]
      by_cases hk : k = "literal"
      · rw [Node.wf, if_pos hk] at hw
        simp [NodeList.headIsStr] at hw
      · rw [if_neg hk]
        split_ifs <;> rfl
  | .tagged k (.cons t ts) v => by
      intro hw
      rw [Node.wf, Bool.and_eq_true] at hw
      have hw' : (NodeList.cons t ts).wfList = true := hw.2
      have hwt : t.wf = true := by
        rw [NodeList.wfList, Bool.and_eq_true] at hw'
        exact hw'.1
      simp only [toSchemaN]
      by_cases hk : k = "literal"
      · rw [if_pos hk]
        rw [if_pos hk] at hw
        cases t with
        | str s => simp [NodeList.headOpt, Schema.noLeak, Node.isStr]
        | tagged k2 ts2 v2 =>
            exfalso
            have := hw.1
            rw [NodeList.headIsStr, Node.isStr] at this
            exact Bool.noConfusion this
        | obj fs2 =>
            exfalso
            have := hw.1
            rw [NodeList.headIsStr, Node.isStr] at this
            exact Bool.noConfusion this
      · rw [if_neg hk]
        split_ifs with h2 h3 h4 h5
        · simpa [Schema.noLeak] using noLeak_toSchemaN t hwt
        · simpa [Schema.noLeak] using noLeak_toSchemaN t hwt
        · simpa [Schema.noLeak] using noLeak_toSchemaNL (.cons t ts) hw'
        · simpa [Schema.noLeak] using noLeak_toSchemaNL (.cons t ts) hw'
        · exact noLeak_toSchemaN t hwt
  | .obj fs => by
      intro hw
      rw [Node.wf] at hw
      simp only [toSchemaN]
      simpa [Schema.noLeak] using noLeak_toSchemaNF fs hw
theorem noLeak_toSchemaNL : (ts : NodeList) → ts.wfList = true →
    (toSchemaNL ts).noLeakList = true
  | .nil => by intro _; rfl
  | .cons h t => by
      intro hw
      rw [NodeList.wfList, Bool.and_eq_true] at hw
      simp only [toSchemaNL, SchemaList.noLeakList, Bool.and_eq_true]
      exact ⟨noLeak_toSchemaN h hw.1, noLeak_toSchemaNL t hw.2⟩
theorem noLeak_toSchemaNF : (fs : NodeFields) → fs.wfFields = true →
    (toSchemaNF fs).noLeakFields = true
  | .nil => by intro _; rfl
  | .cons k v t => by
      intro hw
      rw [NodeFields.wfFields, Bool.and_eq_true] at hw
      simp only [toSchemaNF, SchemaFields.noLeakFields, Bool.and_eq_true]
      exact ⟨noLeak_toSchemaN v hw.1, noLeak_toSchemaNF t hw.2⟩
end

/-- C8. The schema serializer is total — it is a function defined on every
Structural Type Node (every `kind`, including the degenerate fallbacks) —
and for every node satisfying the data-model invariant (§3: a literal
carries its primitive kind as a plain string) the produced schema contains
no unresolved internal tag; `null`/`undefined` input yields exactly
`\x7btype: any\x7d`. -/
theorem C8_serializer_totality :
    (∀ n : Node, n.wf = true → (toSchema (some n)).noLeak = true) ∧
    toSchema none = Schema.typeS "any" :=
  ⟨fun n hw => noLeak_toSchemaN n hw, rfl⟩

/-- C8 witness: a concrete well-formed literal node serialized leak-free,
and the null case. -/
theorem C8_serializer_totality_witness :
    literalNode.wf = true ∧
    (toSchema (some literalNode)).noLeak = true ∧
    toSchema none = Schema.typeS "any" :=
  ⟨by decide, C8_serializer_totality.1 literalNode (by decide),
   C8_serializer_totality.2⟩
